import Mathlib

/-!
Verification of the OneCloud resource reconciliation core: the route-table
sync orchestrator `SRouteTableManager.SyncRouteTables` and its helpers from
pkg/compute/models/loadbalancerclusterresource.go, the Set Comparator
`compare.CompareSets`, and the security-rule comparator
`cloudprovider.CompareRules`, shallowly embedded in Lean.

External collaborators (database store, lock manager, audit logger, cloud
driver) are modelled as an explicit environment of failure oracles; the
local store is a list of rows threaded through the pass, and side effects
are recorded in an event trace.
-/

set_option linter.unusedVariables false

namespace OneCloud

/-- A single route entry of a route table (source struct `SRoute`). -/
structure SRoute where
  type : String
  cidr : String
  nextHopType : String
  nextHopId : String
deriving DecidableEq, Repr

/-- A remote route table snapshot, the data read from a
`cloudprovider.ICloudRouteTable` through its getters `GetGlobalId`,
`GetName`, `GetType`, `GetDescription` and `GetIRoutes`. -/
structure ICloudRouteTable where
  globalId : String
  name : String
  type : String
  description : String
  routes : List SRoute
deriving DecidableEq, Repr

/-- A locally stored route table row: the fields of the source struct
`SRouteTable` that `SyncRouteTables` and its helpers read or write. -/
structure SRouteTable where
  name : String
  type : String
  routes : List SRoute
  vpcId : String
  externalId : String
  description : String
  projectId : String
  domainId : String
deriving DecidableEq, Repr

/-- The parent VPC of a sync pass (fields of `SVpc` used by the pass). -/
structure Vpc where
  id : String
  name : String
deriving DecidableEq, Repr

/-- The requesting credential (fields of `mcclient.TokenCredential` read by
`newRouteTableFromCloud`). -/
structure UserCred where
  projectId : String
  domainId : String
deriving DecidableEq, Repr

/-- The local elements whose key matches no remote key: the removed
partition of the Set Comparator. -/
def csRemoved {α β : Type} (lk : α → String) (rk : β → String)
    (locs : List α) (rems : List β) : List α :=
  locs.filter (fun a => !(rems.any (fun b => rk b == lk a)))

/-- The matched pairs of the Set Comparator, in order of appearance of the
local element, each local element paired with the remote element of the
same key. -/
def csPairs {α β : Type} (lk : α → String) (rk : β → String)
    (locs : List α) (rems : List β) : List (α × β) :=
  locs.filterMap (fun a =>
    (rems.find? (fun b => rk b == lk a)).map (fun b => (a, b)))

/-- The remote elements whose key matches no local key: the added partition
of the Set Comparator. -/
def csAdded {α β : Type} (lk : α → String) (rk : β → String)
    (locs : List α) (rems : List β) : List β :=
  rems.filter (fun b => !(locs.any (fun a => lk a == rk b)))

/-- Modelled from the spec: `compare.CompareSets`, the Set Comparator of
section 4.1, whose definition is outside the provided sources (only its
caller `SyncRouteTables` is given). Key-based diff of a local against a
remote collection: a key present only locally is removed, only remotely is
added, on both sides is paired, pair order following the local list; a
duplicate key on either side yields an `AmbiguousKeyError`. -/
def CompareSets {α β : Type} (lk : α → String) (rk : β → String)
    (locs : List α) (rems : List β) :
    Except String (List α × List (α × β) × List β) :=
  if (locs.map lk).Nodup then
    if (rems.map rk).Nodup then
      .ok (csRemoved lk rk locs rems, csPairs lk rk locs rems,
           csAdded lk rk locs rems)
    else .error "AmbiguousKeyError: duplicate key on the remote side"
  else .error "AmbiguousKeyError: duplicate key on the local side"

/-- Modelled from the spec: `compare.SyncResult` (section 3), the accumulator
of per-category counts and error causes of one sync pass, plus the pass-level
errors recorded by its `Error` method. -/
structure SyncResult where
  addCnt : Nat
  updateCnt : Nat
  delCnt : Nat
  addErrors : List String
  updateErrors : List String
  delErrors : List String
  passErrors : List String
deriving DecidableEq, Repr

/-- A fresh `SyncResult`, all counters zero and no errors. -/
def SyncResult.empty : SyncResult := ⟨0, 0, 0, [], [], [], []⟩

/-- Method `SyncResult.Add`. -/
def SyncResult.add (r : SyncResult) : SyncResult := { r with addCnt := r.addCnt + 1 }

/-- Method `SyncResult.Update`. -/
def SyncResult.update (r : SyncResult) : SyncResult := { r with updateCnt := r.updateCnt + 1 }

/-- Method `SyncResult.Delete`. -/
def SyncResult.delete (r : SyncResult) : SyncResult := { r with delCnt := r.delCnt + 1 }

/-- Method `SyncResult.AddError`. -/
def SyncResult.addError (r : SyncResult) (e : String) : SyncResult :=
  { r with addErrors := r.addErrors ++ [e] }

/-- Method `SyncResult.UpdateError`. -/
def SyncResult.updateError (r : SyncResult) (e : String) : SyncResult :=
  { r with updateErrors := r.updateErrors ++ [e] }

/-- Method `SyncResult.DeleteError`. -/
def SyncResult.deleteError (r : SyncResult) (e : String) : SyncResult :=
  { r with delErrors := r.delErrors ++ [e] }

/-- Method `SyncResult.Error`, recording a pass-level error. -/
def SyncResult.error (r : SyncResult) (e : String) : SyncResult :=
  { r with passErrors := r.passErrors ++ [e] }

/-- One observable side effect of a sync pass: a store mutation, an audit
log append (`db.OpsLog`), or a metadata synchronization (`syncMetadata`).
Audit and metadata events carry whether the external logger succeeded. -/
inductive SyncEvent where
  | deleteRow (key : String)
  | updateRow (key : String)
  | insertRow (key : String)
  | auditLog (action : String) (key : String) (ok : Bool)
  | metaSync (key : String) (ok : Bool)
deriving DecidableEq, Repr

/-- The mutation phase of an event: 0 for a delete, 1 for an update, 2 for
an insert, none for the audit/metadata side channel. -/
def mutPhase : SyncEvent → Option Nat
  | SyncEvent.deleteRow _ => some 0
  | SyncEvent.updateRow _ => some 1
  | SyncEvent.insertRow _ => some 2
  | _ => none

/-- The environment of external collaborators of one sync pass: failure
oracles for the local store and the cloud driver (`none` means the call
succeeds), and the outcome of the fire-and-forget audit/metadata calls. -/
structure SyncEnv where
  fetchErr : Option String
  validateDeleteErr : SRouteTable → Option String
  realDeleteErr : SRouteTable → Option String
  getIRoutesErr : ICloudRouteTable → Option String
  updateErr : SRouteTable → Option String
  insertErr : SRouteTable → Option String
  auditOk : Bool
  metaOk : Bool

/-- Replace only the audit/metadata outcome flags of an environment. -/
def SyncEnv.withFlags (env : SyncEnv) (b b' : Bool) : SyncEnv :=
  { env with auditOk := b, metaOk := b' }

/-- Modelled from the spec: `db.GenerateName` (outside the provided sources),
the "deterministic basename + uniqueness suffix strategy": auxiliary scan for
the smallest free numeric suffix. -/
def GenerateNameAux (names : List String) (base : String) : Nat → Nat → String
  | 0, k => base ++ "-" ++ toString k
  | fuel + 1, k =>
    if names.contains (base ++ "-" ++ toString k) then
      GenerateNameAux names base fuel (k + 1)
    else base ++ "-" ++ toString k

/-- Modelled from the spec: `db.GenerateName` — returns the basename itself
when it does not collide with an existing name, otherwise the basename with
the smallest free numeric suffix. -/
def GenerateName (names : List String) (base : String) : String :=
  if names.contains base then GenerateNameAux names base (names.length + 1) 1
  else base

/-- Source function `routeTableBasename`: the remote name when non-empty,
else "rtbl-" plus the VPC name when that is non-empty, else "rtbl". -/
def routeTableBasename (name vpcName : String) : String :=
  if name ≠ "" then name
  else if vpcName ≠ "" then "rtbl-" ++ vpcName
  else "rtbl"

/-- Source function `SRouteTableManager.newRouteTableFromCloud`: reads the
remote routes (may fail), generates a local name from the basename, and
builds the local row from the remote snapshot and the credential. -/
def newRouteTableFromCloud (env : SyncEnv) (userCred : UserCred)
    (names : List String) (vpc : Vpc) (c : ICloudRouteTable) :
    Except String SRouteTable :=
  match env.getIRoutesErr c with
  | some e => .error e
  | none =>
    let basename := routeTableBasename c.name vpc.name
    let newName := GenerateName names basename
    .ok { name := newName
          type := c.type
          routes := c.routes
          vpcId := vpc.id
          externalId := c.globalId
          description := c.description
          projectId := userCred.projectId
          domainId := userCred.domainId }

/-- Source function `SRouteTable.syncRemoveCloudRouteTable`: validate the
delete condition, then really delete; either step may fail. -/
def syncRemoveCloudRouteTable (env : SyncEnv) (rt : SRouteTable) :
    Except String Unit :=
  match env.validateDeleteErr rt with
  | some e => .error e
  | none =>
    match env.realDeleteErr rt with
    | some e => .error e
    | none => .ok ()

/-- Source function `SRouteTable.SyncWithCloudRouteTable`: rebuild the row
from the cloud snapshot (may fail), then update in place the vpc id, type
and routes of the local row (the store update may fail). -/
def SyncWithCloudRouteTable (env : SyncEnv) (userCred : UserCred)
    (names : List String) (vpc : Vpc) (rt : SRouteTable) (c : ICloudRouteTable) :
    Except String SRouteTable :=
  match newRouteTableFromCloud env userCred names vpc c with
  | .error e => .error e
  | .ok nt =>
    match env.updateErr rt with
    | some e => .error e
    | none => .ok { rt with vpcId := vpc.id, type := nt.type, routes := nt.routes }

/-- Source function `SRouteTableManager.insertFromCloud`: build the new row
from the cloud snapshot (may fail), then insert it (may fail). -/
def insertFromCloud (env : SyncEnv) (userCred : UserCred) (names : List String)
    (vpc : Vpc) (c : ICloudRouteTable) : Except String SRouteTable :=
  match newRouteTableFromCloud env userCred names vpc c with
  | .error e => .error e
  | .ok rt =>
    match env.insertErr rt with
    | some e => .error e
    | none => .ok rt

/-- The mutable state threaded through the apply loops of one pass: the
local store, the accumulated local/remote result lists, the `SyncResult`,
and the side-effect trace. -/
structure SyncState where
  store : List SRouteTable
  locs : List SRouteTable
  rems : List ICloudRouteTable
  result : SyncResult
  trace : List SyncEvent
deriving DecidableEq, Repr

/-- The pass data a caller observes apart from the side-effect trace. -/
def SyncState.data (st : SyncState) :
    List SRouteTable × List SRouteTable × List ICloudRouteTable × SyncResult :=
  (st.store, st.locs, st.rems, st.result)

/-- One iteration of the removed-loop of `SyncRouteTables`: try
`syncRemoveCloudRouteTable`; on failure record a `DeleteError`, on success
delete the row and record a `Delete`. The audit append and metadata cleanup
of a successful delete happen inside the db layer (`RealDelete`), which is
outside the provided sources; they are modelled from the spec ("every
successful add/update/delete appends an audit log entry and, for
update/delete, associated metadata synchronization"). -/
def applyRemoved (env : SyncEnv) (st : SyncState) (rt : SRouteTable) : SyncState :=
  match syncRemoveCloudRouteTable env rt with
  | .error e => { st with result := st.result.deleteError e }
  | .ok _ =>
    { st with
      store := st.store.filter (fun x => x.externalId != rt.externalId)
      result := st.result.delete
      trace := st.trace ++ [SyncEvent.deleteRow rt.externalId,
                            SyncEvent.auditLog "delete" rt.externalId env.auditOk,
                            SyncEvent.metaSync rt.externalId env.metaOk] }

/-- One iteration of the common-loop of `SyncRouteTables`: try
`SyncWithCloudRouteTable`; on failure record an `UpdateError` and continue,
on success replace the row in place, log the sync update (`LogSyncUpdate`),
run `syncMetadata`, append the pair to the result lists and record an
`Update`. -/
def applyCommon (env : SyncEnv) (userCred : UserCred) (vpc : Vpc)
    (st : SyncState) (p : SRouteTable × ICloudRouteTable) : SyncState :=
  match SyncWithCloudRouteTable env userCred (st.store.map (fun x => x.name))
        vpc p.1 p.2 with
  | .error e => { st with result := st.result.updateError e }
  | .ok nt =>
    { st with
      store := st.store.map (fun x => if x.externalId = p.1.externalId then nt else x)
      locs := st.locs ++ [nt]
      rems := st.rems ++ [p.2]
      result := st.result.update
      trace := st.trace ++ [SyncEvent.updateRow p.1.externalId,
                            SyncEvent.auditLog "update" p.1.externalId env.auditOk,
                            SyncEvent.metaSync p.1.externalId env.metaOk] }

/-- One iteration of the added-loop of `SyncRouteTables`: try
`insertFromCloud`; on failure record an `AddError` and continue, on success
append the new row, log its creation (`LogEvent ACT_CREATE`), run
`syncMetadata`, append the pair to the result lists and record an `Add`. -/
def applyAdded (env : SyncEnv) (userCred : UserCred) (vpc : Vpc)
    (st : SyncState) (c : ICloudRouteTable) : SyncState :=
  match insertFromCloud env userCred (st.store.map (fun x => x.name)) vpc c with
  | .error e => { st with result := st.result.addError e }
  | .ok nt =>
    { st with
      store := st.store ++ [nt]
      locs := st.locs ++ [nt]
      rems := st.rems ++ [c]
      result := st.result.add
      trace := st.trace ++ [SyncEvent.insertRow c.globalId,
                            SyncEvent.auditLog "create" c.globalId env.auditOk,
                            SyncEvent.metaSync c.globalId env.metaOk] }

/-- The observable outcome of one pass of `SyncRouteTables`: the returned
local and remote lists (`none` models the Go `nil` returned on a pass-level
error), the `SyncResult`, the final local store, and the side-effect trace. -/
structure SyncOutput where
  localTables : Option (List SRouteTable)
  remoteTables : Option (List ICloudRouteTable)
  result : SyncResult
  store : List SRouteTable
  trace : List SyncEvent
deriving DecidableEq, Repr

/-- Source function `SRouteTableManager.SyncRouteTables`: query the local
rows of the VPC (abort on failure), partition them against the remote
snapshots with `CompareSets` (abort on failure), then apply the removed
loop, the common loop and the added loop in that order. -/
def SyncRouteTables (env : SyncEnv) (userCred : UserCred) (vpc : Vpc)
    (store : List SRouteTable) (clouds : List ICloudRouteTable) : SyncOutput :=
  match env.fetchErr with
  | some e => ⟨none, none, SyncResult.empty.error e, store, []⟩
  | none =>
    let dbRouteTables := store.filter (fun rt => rt.vpcId == vpc.id)
    match CompareSets (fun rt => rt.externalId) (fun c => c.globalId)
          dbRouteTables clouds with
    | .error e => ⟨none, none, SyncResult.empty.error e, store, []⟩
    | .ok (removed, pairs, added) =>
      let st0 : SyncState := ⟨store, [], [], SyncResult.empty, []⟩
      let st1 := removed.foldl (applyRemoved env) st0
      let st2 := pairs.foldl (applyCommon env userCred vpc) st1
      let st3 := added.foldl (applyAdded env userCred vpc) st2
      ⟨some st3.locs, some st3.rems, st3.result, st3.store, st3.trace⟩

/-- The direction of a security rule. -/
inductive RuleDir where
  | dirIn
  | dirOut
deriving DecidableEq, Repr

/-- The action of a security rule. -/
inductive RuleAct where
  | allow
  | deny
deriving DecidableEq, Repr

/-- A security-group rule: direction, action, protocol, port range, peer
CIDR and provider priority (spec section 3, `Rule`). -/
structure SecurityRule where
  direction : RuleDir
  action : RuleAct
  protocol : String
  portStart : Int
  portEnd : Int
  cidr : String
  priority : Int
deriving DecidableEq, Repr

/-- The canonical matching tuple of a rule: everything but the priority.
Two rules are "common" precisely when their tuples agree (spec section 4.2:
priority differences alone do not trigger a delete plus re-add). -/
def SecurityRule.normTuple (r : SecurityRule) :
    RuleDir × RuleAct × String × Int × Int × String :=
  (r.direction, r.action, r.protocol, r.portStart, r.portEnd, r.cidr)

/-- Whether a rule belongs to the requested directions of a comparison. -/
def ruleInScope (includeIn includeOut : Bool) (r : SecurityRule) : Bool :=
  match r.direction with
  | RuleDir.dirIn => includeIn
  | RuleDir.dirOut => includeOut

/-- Whether a rule exactly equals the immutable default rule of its
direction. -/
def ruleIsDefault (defaultIn defaultOut : SecurityRule) (r : SecurityRule) : Bool :=
  match r.direction with
  | RuleDir.dirIn => r == defaultIn
  | RuleDir.dirOut => r == defaultOut

/-- Multiset matching of the desired local rules against the current remote
rules by canonical tuple: scans the remote list, pairing each remote rule
with the first still-unmatched local rule of the same tuple. Returns the
unmatched locals (to add), the matched remotes (common), and the unmatched
remotes (to delete). -/
def matchRules (pending : List SecurityRule) :
    List SecurityRule →
    List SecurityRule × List SecurityRule × List SecurityRule
  | [] => (pending, [], [])
  | r :: rest =>
    if pending.any (fun l => l.normTuple == r.normTuple) then
      let pending' := pending.eraseP (fun l => l.normTuple == r.normTuple)
      let res := matchRules pending' rest
      (res.1, r :: res.2.1, res.2.2)
    else
      let res := matchRules pending rest
      (res.1, res.2.1, r :: res.2.2)

/-- Whether a rule survives the normalization step: it belongs to a
requested direction and is not the immutable default of its direction. -/
def keepRule (defaultIn defaultOut : SecurityRule) (includeIn includeOut : Bool)
    (r : SecurityRule) : Bool :=
  ruleInScope includeIn includeOut r && !(ruleIsDefault defaultIn defaultOut r)

/-- The desired local rules after normalization: restricted to the requested
directions, stripped of default rules, and — in allow-only mode, where the
provider cannot express deny — with local deny rules translated into
omission. -/
def scopedLocals (localRules : List SecurityRule)
    (defaultIn defaultOut : SecurityRule)
    (allowOnly includeIn includeOut : Bool) : List SecurityRule :=
  let l0 := localRules.filter (keepRule defaultIn defaultOut includeIn includeOut)
  if allowOnly then l0.filter (fun r => r.action == RuleAct.allow) else l0

/-- The current remote rules after normalization: restricted to the
requested directions and stripped of default rules. -/
def scopedRemotes (remoteRules : List SecurityRule)
    (defaultIn defaultOut : SecurityRule)
    (includeIn includeOut : Bool) : List SecurityRule :=
  remoteRules.filter (keepRule defaultIn defaultOut includeIn includeOut)

/-- Number a list of rules with consecutive priorities starting at the given
one, preserving list order. -/
def numberFrom (minPriority : Int) : List SecurityRule → List SecurityRule
  | [] => []
  | r :: rest => { r with priority := minPriority } :: numberFrom (minPriority + 1) rest

/-- Assign provider priorities to the rules to add, preserving the relative
order implied by the local rule list: the i-th added rule gets
`minPriority + i`. When the rules to add exceed the capacity of the closed
interval `[minPriority, maxPriority]` the assignment fails with
`PriorityExhaustedError` (spec section 4.2 edge case). -/
def assignPriorities (minPriority maxPriority : Int)
    (rules : List SecurityRule) : Except String (List SecurityRule) :=
  if (rules.length : Int) > maxPriority - minPriority + 1 then
    .error "PriorityExhaustedError"
  else
    .ok (numberFrom minPriority rules)

/-- Modelled from the spec: `cloudprovider.CompareRules` (section 4.2),
whose definition is outside the provided sources (only its Aliyun driver
test is given). Both rule sets are restricted to the requested directions
and stripped of rules exactly equal to the direction's immutable default;
in allow-only mode local deny rules are translated into omission; rules are
matched by canonical tuple regardless of priority; unmatched remote rules
become deletions, unmatched local rules become additions with priorities
assigned deterministically within the bounds. -/
def CompareRules (minPriority maxPriority : Int)
    (localRules remoteRules : List SecurityRule)
    (defaultIn defaultOut : SecurityRule)
    (allowOnly includeIn includeOut : Bool) :
    Except String (List SecurityRule × List SecurityRule × List SecurityRule ×
                   List SecurityRule × List SecurityRule) :=
  let locs := scopedLocals localRules defaultIn defaultOut allowOnly includeIn includeOut
  let rems := scopedRemotes remoteRules defaultIn defaultOut includeIn includeOut
  let res := matchRules locs rems
  let inDels := res.2.2.filter (fun r => r.direction == RuleDir.dirIn)
  let outDels := res.2.2.filter (fun r => r.direction == RuleDir.dirOut)
  match assignPriorities minPriority maxPriority
        (res.1.filter (fun r => r.direction == RuleDir.dirIn)) with
  | .error e => .error e
  | .ok inAdds =>
    match assignPriorities minPriority maxPriority
          (res.1.filter (fun r => r.direction == RuleDir.dirOut)) with
    | .error e => .error e
    | .ok outAdds => .ok (res.2.1, inAdds, outAdds, inDels, outDels)

/-- An environment in which every external call succeeds. -/
def okEnv : SyncEnv :=
  ⟨none, fun _ => none, fun _ => none, fun _ => none, fun _ => none,
   fun _ => none, true, true⟩

/-- A concrete credential for the worked examples. -/
def exCred : UserCred := ⟨"proj", "dom"⟩

/-- A concrete parent VPC for the worked examples. -/
def exVpc : Vpc := ⟨"vpc1", "myvpc"⟩

/-- A local row with external id A (spec section 8, route-table scenario). -/
def exRowA : SRouteTable := ⟨"nA", "t", [], "vpc1", "A", "", "proj", "dom"⟩

/-- A local row with external id B (spec section 8, route-table scenario). -/
def exRowB : SRouteTable := ⟨"nB", "t", [], "vpc1", "B", "", "proj", "dom"⟩

/-- The remote snapshot with global id B, differing from the local row B in
type and routes. -/
def exRemB : ICloudRouteTable :=
  ⟨"B", "nB", "t2", "dB", [⟨"sys", "10.0.0.0/8", "gw", "g1"⟩]⟩

/-- The remote snapshot with global id C, absent locally. -/
def exRemC : ICloudRouteTable := ⟨"C", "nC", "t", "dC", []⟩

/-- The expected local row B after the update: vpc id, type and routes taken
from the remote snapshot, every other field kept. -/
def exRowBUpdated : SRouteTable :=
  ⟨"nB", "t2", [⟨"sys", "10.0.0.0/8", "gw", "g1"⟩], "vpc1", "B", "", "proj", "dom"⟩

/-- The expected local row C after the insert, built from the remote
snapshot by `newRouteTableFromCloud`. -/
def exRowCNew : SRouteTable := ⟨"nC", "t", [], "vpc1", "C", "dC", "proj", "dom"⟩

/-- A local row of the five-delete scenario, keyed by its external id. -/
def exRow5 (k : String) : SRouteTable := ⟨"n" ++ k, "t", [], "vpc1", k, "", "p", "d"⟩

/-- The environment of the five-delete scenario: the delete validation of
the row with external id K3 fails, everything else succeeds. -/
def exEnv5 : SyncEnv :=
  { okEnv with validateDeleteErr :=
      fun rt => if rt.externalId == "K3" then some "in use" else none }

/-- An environment whose initial store query fails. -/
def exEnvFetchFail : SyncEnv := { okEnv with fetchErr := some "query failed" }

/-- A store with a duplicate external id, making `CompareSets` fail. -/
def exDupStore : List SRouteTable :=
  [⟨"n1", "t", [], "vpc1", "D", "", "p", "d"⟩,
   ⟨"n2", "t", [], "vpc1", "D", "", "p", "d"⟩]

/-- The immutable inbound default rule of the worked rule examples. -/
def exDefIn : SecurityRule :=
  ⟨RuleDir.dirIn, RuleAct.deny, "any", 0, 65535, "0.0.0.0/0", 0⟩

/-- The immutable outbound default rule of the worked rule examples. -/
def exDefOut : SecurityRule :=
  ⟨RuleDir.dirOut, RuleAct.allow, "any", 0, 65535, "0.0.0.0/0", 0⟩

/-- The desired local rule of the spec section 8 rule scenario: allow tcp 22
inbound. -/
def exTcp22 : SecurityRule :=
  ⟨RuleDir.dirIn, RuleAct.allow, "tcp", 22, 22, "0.0.0.0/0", 50⟩

/-- A remote inbound rule that is not the default rule. -/
def exRem443 : SecurityRule :=
  ⟨RuleDir.dirIn, RuleAct.allow, "tcp", 443, 443, "0.0.0.0/0", 7⟩

/-- The local rule tcp 22 with the priority assigned by the comparator in
the spec section 8 rule scenario. -/
def exTcp22P1 : SecurityRule :=
  ⟨RuleDir.dirIn, RuleAct.allow, "tcp", 22, 22, "0.0.0.0/0", 1⟩

/-- A second desired local rule (tcp 23) for the capacity scenario. -/
def exTcp23 : SecurityRule :=
  ⟨RuleDir.dirIn, RuleAct.allow, "tcp", 23, 23, "0.0.0.0/0", 49⟩

/-- A third desired local rule (tcp 24) for the capacity scenario. -/
def exTcp24 : SecurityRule :=
  ⟨RuleDir.dirIn, RuleAct.allow, "tcp", 24, 24, "0.0.0.0/0", 48⟩

/-- An inbound default rule whose priority equals the lower priority bound,
used to exhibit a default rule scheduled for addition. -/
def exCtrDefIn : SecurityRule :=
  ⟨RuleDir.dirIn, RuleAct.deny, "any", 0, 65535, "0.0.0.0/0", 1⟩

/-- A desired local rule with the same canonical tuple as `exCtrDefIn` but a
different priority: exact-equality default stripping does not remove it. -/
def exCtrLocal : SecurityRule :=
  ⟨RuleDir.dirIn, RuleAct.deny, "any", 0, 65535, "0.0.0.0/0", 5⟩

theorem numberFrom_length (minP : Int) (l : List SecurityRule) :
    (numberFrom minP l).length = l.length := by
  induction l generalizing minP with
  | nil => rfl
  | cons r t ih => simp [numberFrom, ih]

theorem numberFrom_bounds (l : List SecurityRule) (minP : Int) :
    ∀ r ∈ numberFrom minP l,
      minP ≤ r.priority ∧ r.priority ≤ minP + l.length - 1 := by
  induction l generalizing minP with
  | nil => intro r h; cases h
  | cons x t ih =>
    intro r h
    rcases List.mem_cons.mp h with h | h
    · subst h
      simp only [List.length_cons]
      constructor
      · exact le_refl _
      · push_cast
        omega
    · have hb := ih (minP + 1) r h
      simp only [List.length_cons]
      push_cast at hb ⊢
      omega

theorem assignPriorities_ok_bounds (minP maxP : Int) (l out : List SecurityRule)
    (h : assignPriorities minP maxP l = Except.ok out) :
    ∀ r ∈ out, minP ≤ r.priority ∧ r.priority ≤ maxP := by
  unfold assignPriorities at h
  split at h
  · exact absurd h (by simp)
  · rename_i hle
    have hout : out = numberFrom minP l := by
      simpa using h.symm
    subst hout
    intro r hr
    have hb := numberFrom_bounds l minP r hr
    omega

theorem assignPriorities_exhausted (minP maxP : Int) (l : List SecurityRule)
    (h : (l.length : Int) > maxP - minP + 1) :
    assignPriorities minP maxP l = Except.error "PriorityExhaustedError" := by
  unfold assignPriorities
  rw [if_pos h]

theorem assignPriorities_error_msg (minP maxP : Int) (l : List SecurityRule)
    (e : String) (h : assignPriorities minP maxP l = Except.error e) :
    e = "PriorityExhaustedError" := by
  unfold assignPriorities at h
  split at h
  · simpa using h.symm
  · exact absurd h (by simp)

theorem matchRules_dels_subset (rems : List SecurityRule) :
    ∀ (pending : List SecurityRule) (r : SecurityRule),
      r ∈ (matchRules pending rems).2.2 → r ∈ rems := by
  induction rems with
  | nil => intro pending r h; cases h
  | cons x rest ih =>
    intro pending r h
    unfold matchRules at h
    split at h
    · exact List.mem_cons_of_mem x (ih _ r h)
    · rcases List.mem_cons.mp h with h | h
      · exact h ▸ List.mem_cons_self x rest
      · exact List.mem_cons_of_mem x (ih _ r h)

/-- C5: every rule in the `inAdds`/`outAdds` sets returned by `CompareRules`
has a priority within the closed interval from `minPriority` to
`maxPriority`; when the rules to add of either direction exceed the capacity
of that interval, `CompareRules` fails with `PriorityExhaustedError` instead
of assigning an out-of-bounds priority. -/
theorem C5_priority_bounds (minP maxP : Int)
    (localRules remoteRules : List SecurityRule) (dIn dOut : SecurityRule)
    (ao iIn iOut : Bool) :
    (∀ common inAdds outAdds inDels outDels,
       CompareRules minP maxP localRules remoteRules dIn dOut ao iIn iOut
         = Except.ok (common, inAdds, outAdds, inDels, outDels) →
       ∀ r, r ∈ inAdds ∨ r ∈ outAdds →
         minP ≤ r.priority ∧ r.priority ≤ maxP) ∧
    ((((matchRules (scopedLocals localRules dIn dOut ao iIn iOut)
          (scopedRemotes remoteRules dIn dOut iIn iOut)).1.filter
          (fun r => r.direction == RuleDir.dirIn)).length : Int)
        > maxP - minP + 1 ∨
     (((matchRules (scopedLocals localRules dIn dOut ao iIn iOut)
          (scopedRemotes remoteRules dIn dOut iIn iOut)).1.filter
          (fun r => r.direction == RuleDir.dirOut)).length : Int)
        > maxP - minP + 1 →
     CompareRules minP maxP localRules remoteRules dIn dOut ao iIn iOut
       = Except.error "PriorityExhaustedError") := by
  constructor
  · intro common inAdds outAdds inDels outDels h r hr
    simp only [CompareRules] at h
    cases h1 : assignPriorities minP maxP
        ((matchRules (scopedLocals localRules dIn dOut ao iIn iOut)
          (scopedRemotes remoteRules dIn dOut iIn iOut)).1.filter
          (fun r => r.direction == RuleDir.dirIn)) with
    | error e => rw [h1] at h; exact absurd h (by simp)
    | ok ia =>
      rw [h1] at h
      cases h2 : assignPriorities minP maxP
          ((matchRules (scopedLocals localRules dIn dOut ao iIn iOut)
            (scopedRemotes remoteRules dIn dOut iIn iOut)).1.filter
            (fun r => r.direction == RuleDir.dirOut)) with
      | error e => rw [h2] at h; exact absurd h (by simp)
      | ok oa =>
        rw [h2] at h
        simp only [Except.ok.injEq, Prod.mk.injEq] at h
        obtain ⟨-, hia, hoa, -, -⟩ := h
        rcases hr with hr | hr
        · exact assignPriorities_ok_bounds minP maxP _ ia h1 r (hia ▸ hr)
        · exact assignPriorities_ok_bounds minP maxP _ oa h2 r (hoa ▸ hr)
  · intro hcap
    simp only [CompareRules]
    rcases hcap with hin | hout
    · rw [assignPriorities_exhausted minP maxP _ hin]
    · cases h1 : assignPriorities minP maxP
          ((matchRules (scopedLocals localRules dIn dOut ao iIn iOut)
            (scopedRemotes remoteRules dIn dOut iIn iOut)).1.filter
            (fun r => r.direction == RuleDir.dirIn)) with
      | error e =>
        have hmsg := assignPriorities_error_msg minP maxP _ e h1
        subst hmsg
        simp only [h1]
      | ok ia =>
        have h2 := assignPriorities_exhausted minP maxP _ hout
        simp only [h1, h2]

/-- Witness for C5: in the spec section 8 rule scenario (one local allow tcp
22 rule, no remote rules, bounds 1 to 100) the assigned priority 1 lies
within the bounds; with bounds 1 to 2 and three rules to add the comparator
fails with `PriorityExhaustedError`. -/
theorem C5_priority_bounds_witness :
    (CompareRules 1 100 [exTcp22] [] exDefIn exDefOut false true true
       = Except.ok ([], [exTcp22P1], [], [], []) ∧
     1 ≤ exTcp22P1.priority ∧ exTcp22P1.priority ≤ 100) ∧
    CompareRules 1 2 [exTcp22, exTcp23, exTcp24] [] exDefIn exDefOut false true true
      = Except.error "PriorityExhaustedError" := by
  constructor
  · refine ⟨rfl, ?_⟩
    exact (C5_priority_bounds 1 100 [exTcp22] [] exDefIn exDefOut false true true).1
      [] [exTcp22P1] [] [] [] rfl exTcp22P1 (Or.inl (by decide))
  · exact (C5_priority_bounds 1 2 [exTcp22, exTcp23, exTcp24] [] exDefIn exDefOut
      false true true).2 (Or.inl (by decide))

/-- C6 (amended): a remote rule that exactly equals the immutable default
rule of its direction never appears in the `inDels` or `outDels` sets
returned by `CompareRules`; default rules are never scheduled for removal.
The original claim's further words "never scheduled for addition" do not
hold: exact-equality stripping keeps a local rule that matches the
default's tuple at a different priority, and renumbering may then assign it
the default's exact priority (see the counterexample). -/
theorem C6_default_rule_immunity (minP maxP : Int)
    (localRules remoteRules : List SecurityRule) (dIn dOut : SecurityRule)
    (ao iIn iOut : Bool)
    (common inAdds outAdds inDels outDels : List SecurityRule)
    (h : CompareRules minP maxP localRules remoteRules dIn dOut ao iIn iOut
         = Except.ok (common, inAdds, outAdds, inDels, outDels)) :
    (∀ r ∈ inDels, r.direction = RuleDir.dirIn ∧ r ≠ dIn) ∧
    (∀ r ∈ outDels, r.direction = RuleDir.dirOut ∧ r ≠ dOut) := by
  simp only [CompareRules] at h
  cases h1 : assignPriorities minP maxP
      ((matchRules (scopedLocals localRules dIn dOut ao iIn iOut)
        (scopedRemotes remoteRules dIn dOut iIn iOut)).1.filter
        (fun r => r.direction == RuleDir.dirIn)) with
  | error e => rw [h1] at h; exact absurd h (by simp)
  | ok ia =>
    rw [h1] at h
    cases h2 : assignPriorities minP maxP
        ((matchRules (scopedLocals localRules dIn dOut ao iIn iOut)
          (scopedRemotes remoteRules dIn dOut iIn iOut)).1.filter
          (fun r => r.direction == RuleDir.dirOut)) with
    | error e => rw [h2] at h; exact absurd h (by simp)
    | ok oa =>
      rw [h2] at h
      simp only [Except.ok.injEq, Prod.mk.injEq] at h
      obtain ⟨-, -, -, hidl, hodl⟩ := h
      have key : ∀ r ∈ (matchRules (scopedLocals localRules dIn dOut ao iIn iOut)
          (scopedRemotes remoteRules dIn dOut iIn iOut)).2.2,
          keepRule dIn dOut iIn iOut r = true := by
        intro r hr
        have hmem := matchRules_dels_subset _ _ r hr
        exact (List.mem_filter.mp hmem).2
      constructor
      · intro r hr
        rw [← hidl] at hr
        have hf := List.mem_filter.mp hr
        have hdir : r.direction = RuleDir.dirIn := by
          have := hf.2
          simpa [beq_iff_eq] using this
        refine ⟨hdir, ?_⟩
        have hkeep := key r hf.1
        unfold keepRule ruleIsDefault at hkeep
        rw [hdir] at hkeep
        simp only [Bool.and_eq_true, Bool.not_eq_true'] at hkeep
        intro hcontra
        rw [hcontra] at hkeep
        simp at hkeep
      · intro r hr
        rw [← hodl] at hr
        have hf := List.mem_filter.mp hr
        have hdir : r.direction = RuleDir.dirOut := by
          have := hf.2
          simpa [beq_iff_eq] using this
        refine ⟨hdir, ?_⟩
        have hkeep := key r hf.1
        unfold keepRule ruleIsDefault at hkeep
        rw [hdir] at hkeep
        simp only [Bool.and_eq_true, Bool.not_eq_true'] at hkeep
        intro hcontra
        rw [hcontra] at hkeep
        simp at hkeep

/-- Witness for C6: with a remote set holding the inbound default rule and
one real rule and an empty desired set, only the real rule is scheduled for
deletion, and it differs from the default. -/
theorem C6_default_rule_immunity_witness :
    CompareRules 1 100 [] [exDefIn, exRem443] exDefIn exDefOut false true true
      = Except.ok ([], [], [], [exRem443], []) ∧
    exRem443.direction = RuleDir.dirIn ∧ exRem443 ≠ exDefIn := by
  refine ⟨rfl, ?_⟩
  exact (C6_default_rule_immunity 1 100 [] [exDefIn, exRem443] exDefIn exDefOut
    false true true [] [] [] [exRem443] [] rfl).1 exRem443 (by decide)

/-- Counterexample for C6 as originally stated: with the inbound default at
priority 1 and a desired local rule of the same canonical tuple at priority
5, the comparator keeps the local rule (default stripping is by exact
equality), schedules it for addition, and renumbers it to priority 1 — so
`inAdds` holds a rule exactly equal to the inbound default, refuting
"default rules are never scheduled for addition". -/
theorem C6_default_rule_immunity_counterexample :
    CompareRules 1 100 [exCtrLocal] [] exCtrDefIn exDefOut false true true
      = Except.ok ([], [exCtrDefIn], [], [], []) ∧
    exCtrDefIn ∈ ([exCtrDefIn] : List SecurityRule) := by
  exact ⟨rfl, by decide⟩

/-- C7: `CompareRules` is deterministic — two invocations on the same nine
inputs return identical common, inAdds, outAdds, inDels and outDels sets,
including identical assigned priorities on added rules. In this pure
embedding of the comparator (no hidden state, no map-iteration order) the
two runs are definitionally the same computation. -/
theorem C7_deterministic (minP maxP : Int)
    (localRules remoteRules : List SecurityRule) (dIn dOut : SecurityRule)
    (ao iIn iOut : Bool) :
    (CompareRules minP maxP localRules remoteRules dIn dOut ao iIn iOut
      = CompareRules minP maxP localRules remoteRules dIn dOut ao iIn iOut) ∧
    (∀ c₁ i₁ o₁ di₁ do₁ c₂ i₂ o₂ di₂ do₂,
      CompareRules minP maxP localRules remoteRules dIn dOut ao iIn iOut
        = Except.ok (c₁, i₁, o₁, di₁, do₁) →
      CompareRules minP maxP localRules remoteRules dIn dOut ao iIn iOut
        = Except.ok (c₂, i₂, o₂, di₂, do₂) →
      c₁ = c₂ ∧ i₁ = i₂ ∧ o₁ = o₂ ∧ di₁ = di₂ ∧ do₁ = do₂) := by
  refine ⟨rfl, ?_⟩
  intro c₁ i₁ o₁ di₁ do₁ c₂ i₂ o₂ di₂ do₂ h₁ h₂
  rw [h₁] at h₂
  simpa using h₂

/-- Witness for C7: two runs of the comparator on the spec section 8 rule
scenario return the same sets. -/
theorem C7_deterministic_witness :
    CompareRules 1 100 [exTcp22] [] exDefIn exDefOut false true true
      = Except.ok ([], [exTcp22P1], [], [], []) ∧
    ([] : List SecurityRule) = [] ∧ [exTcp22P1] = [exTcp22P1] ∧
    ([] : List SecurityRule) = [] ∧ ([] : List SecurityRule) = [] ∧
    ([] : List SecurityRule) = [] := by
  refine ⟨rfl, ?_⟩
  have h := (C7_deterministic 1 100 [exTcp22] [] exDefIn exDefOut false true true).2
    [] [exTcp22P1] [] [] [] [] [exTcp22P1] [] [] [] rfl rfl
  exact ⟨h.1, h.2.1, h.2.2.1, h.2.2.2.1, h.2.2.2.2⟩

theorem applyRemoved_result (env : SyncEnv) (st : SyncState) (rt : SRouteTable) :
    ((applyRemoved env st rt).result.delCnt
        + (applyRemoved env st rt).result.delErrors.length
      = st.result.delCnt + st.result.delErrors.length + 1) ∧
    (applyRemoved env st rt).result.updateCnt = st.result.updateCnt ∧
    (applyRemoved env st rt).result.updateErrors = st.result.updateErrors ∧
    (applyRemoved env st rt).result.addCnt = st.result.addCnt ∧
    (applyRemoved env st rt).result.addErrors = st.result.addErrors ∧
    (applyRemoved env st rt).result.passErrors = st.result.passErrors := by
  unfold applyRemoved
  cases hsr : syncRemoveCloudRouteTable env rt with
  | error e =>
    refine ⟨?_, rfl, rfl, rfl, rfl, rfl⟩
    simp [SyncResult.deleteError]
    omega
  | ok u =>
    refine ⟨?_, rfl, rfl, rfl, rfl, rfl⟩
    simp [SyncResult.delete]
    omega

theorem applyCommon_result (env : SyncEnv) (uc : UserCred) (vpc : Vpc)
    (st : SyncState) (p : SRouteTable × ICloudRouteTable) :
    ((applyCommon env uc vpc st p).result.updateCnt
        + (applyCommon env uc vpc st p).result.updateErrors.length
      = st.result.updateCnt + st.result.updateErrors.length + 1) ∧
    (applyCommon env uc vpc st p).result.delCnt = st.result.delCnt ∧
    (applyCommon env uc vpc st p).result.delErrors = st.result.delErrors ∧
    (applyCommon env uc vpc st p).result.addCnt = st.result.addCnt ∧
    (applyCommon env uc vpc st p).result.addErrors = st.result.addErrors ∧
    (applyCommon env uc vpc st p).result.passErrors = st.result.passErrors := by
  unfold applyCommon
  cases hsw : SyncWithCloudRouteTable env uc (st.store.map (fun x => x.name))
      vpc p.1 p.2 with
  | error e =>
    refine ⟨?_, rfl, rfl, rfl, rfl, rfl⟩
    simp [SyncResult.updateError]
    omega
  | ok nt =>
    refine ⟨?_, rfl, rfl, rfl, rfl, rfl⟩
    simp [SyncResult.update]
    omega

theorem applyAdded_result (env : SyncEnv) (uc : UserCred) (vpc : Vpc)
    (st : SyncState) (c : ICloudRouteTable) :
    ((applyAdded env uc vpc st c).result.addCnt
        + (applyAdded env uc vpc st c).result.addErrors.length
      = st.result.addCnt + st.result.addErrors.length + 1) ∧
    (applyAdded env uc vpc st c).result.delCnt = st.result.delCnt ∧
    (applyAdded env uc vpc st c).result.delErrors = st.result.delErrors ∧
    (applyAdded env uc vpc st c).result.updateCnt = st.result.updateCnt ∧
    (applyAdded env uc vpc st c).result.updateErrors = st.result.updateErrors ∧
    (applyAdded env uc vpc st c).result.passErrors = st.result.passErrors := by
  unfold applyAdded
  cases hsi : insertFromCloud env uc (st.store.map (fun x => x.name)) vpc c with
  | error e =>
    refine ⟨?_, rfl, rfl, rfl, rfl, rfl⟩
    simp [SyncResult.addError]
    omega
  | ok nt =>
    refine ⟨?_, rfl, rfl, rfl, rfl, rfl⟩
    simp [SyncResult.add]
    omega

theorem foldRemoved_result (env : SyncEnv) (l : List SRouteTable) (st : SyncState) :
    ((l.foldl (applyRemoved env) st).result.delCnt
        + (l.foldl (applyRemoved env) st).result.delErrors.length
      = st.result.delCnt + st.result.delErrors.length + l.length) ∧
    (l.foldl (applyRemoved env) st).result.updateCnt = st.result.updateCnt ∧
    (l.foldl (applyRemoved env) st).result.updateErrors = st.result.updateErrors ∧
    (l.foldl (applyRemoved env) st).result.addCnt = st.result.addCnt ∧
    (l.foldl (applyRemoved env) st).result.addErrors = st.result.addErrors ∧
    (l.foldl (applyRemoved env) st).result.passErrors = st.result.passErrors := by
  induction l generalizing st with
  | nil => simp
  | cons rt t ih =>
    rw [List.foldl_cons]
    obtain ⟨s1, s2, s3, s4, s5, s6⟩ := applyRemoved_result env st rt
    obtain ⟨r1, r2, r3, r4, r5, r6⟩ := ih (applyRemoved env st rt)
    refine ⟨?_, ?_, ?_, ?_, ?_, ?_⟩
    · rw [r1, s1]; simp; omega
    · rw [r2, s2]
    · rw [r3, s3]
    · rw [r4, s4]
    · rw [r5, s5]
    · rw [r6, s6]

theorem foldCommon_result (env : SyncEnv) (uc : UserCred) (vpc : Vpc)
    (l : List (SRouteTable × ICloudRouteTable)) (st : SyncState) :
    ((l.foldl (applyCommon env uc vpc) st).result.updateCnt
        + (l.foldl (applyCommon env uc vpc) st).result.updateErrors.length
      = st.result.updateCnt + st.result.updateErrors.length + l.length) ∧
    (l.foldl (applyCommon env uc vpc) st).result.delCnt = st.result.delCnt ∧
    (l.foldl (applyCommon env uc vpc) st).result.delErrors = st.result.delErrors ∧
    (l.foldl (applyCommon env uc vpc) st).result.addCnt = st.result.addCnt ∧
    (l.foldl (applyCommon env uc vpc) st).result.addErrors = st.result.addErrors ∧
    (l.foldl (applyCommon env uc vpc) st).result.passErrors = st.result.passErrors := by
  induction l generalizing st with
  | nil => simp
  | cons p t ih =>
    rw [List.foldl_cons]
    obtain ⟨s1, s2, s3, s4, s5, s6⟩ := applyCommon_result env uc vpc st p
    obtain ⟨r1, r2, r3, r4, r5, r6⟩ := ih (applyCommon env uc vpc st p)
    refine ⟨?_, ?_, ?_, ?_, ?_, ?_⟩
    · rw [r1, s1]; simp; omega
    · rw [r2, s2]
    · rw [r3, s3]
    · rw [r4, s4]
    · rw [r5, s5]
    · rw [r6, s6]

theorem foldAdded_result (env : SyncEnv) (uc : UserCred) (vpc : Vpc)
    (l : List ICloudRouteTable) (st : SyncState) :
    ((l.foldl (applyAdded env uc vpc) st).result.addCnt
        + (l.foldl (applyAdded env uc vpc) st).result.addErrors.length
      = st.result.addCnt + st.result.addErrors.length + l.length) ∧
    (l.foldl (applyAdded env uc vpc) st).result.delCnt = st.result.delCnt ∧
    (l.foldl (applyAdded env uc vpc) st).result.delErrors = st.result.delErrors ∧
    (l.foldl (applyAdded env uc vpc) st).result.updateCnt = st.result.updateCnt ∧
    (l.foldl (applyAdded env uc vpc) st).result.updateErrors = st.result.updateErrors ∧
    (l.foldl (applyAdded env uc vpc) st).result.passErrors = st.result.passErrors := by
  induction l generalizing st with
  | nil => simp
  | cons c t ih =>
    rw [List.foldl_cons]
    obtain ⟨s1, s2, s3, s4, s5, s6⟩ := applyAdded_result env uc vpc st c
    obtain ⟨r1, r2, r3, r4, r5, r6⟩ := ih (applyAdded env uc vpc st c)
    refine ⟨?_, ?_, ?_, ?_, ?_, ?_⟩
    · rw [r1, s1]; simp; omega
    · rw [r2, s2]
    · rw [r3, s3]
    · rw [r4, s4]
    · rw [r5, s5]
    · rw [r6, s6]

theorem foldRemoved_trace (env : SyncEnv) (l : List SRouteTable) (st : SyncState) :
    ∃ ext, (l.foldl (applyRemoved env) st).trace = st.trace ++ ext ∧
      (∀ n ∈ ext.filterMap mutPhase, n = 0) ∧
      (∀ k, SyncEvent.deleteRow k ∈ ext →
        SyncEvent.auditLog "delete" k env.auditOk ∈ ext ∧
        SyncEvent.metaSync k env.metaOk ∈ ext) := by
  induction l generalizing st with
  | nil => exact ⟨[], by simp, by simp, by simp⟩
  | cons rt t ih =>
    rw [List.foldl_cons]
    obtain ⟨ext, h1, h2, h3⟩ := ih (applyRemoved env st rt)
    cases hsr : syncRemoveCloudRouteTable env rt with
    | error e =>
      refine ⟨ext, ?_, h2, h3⟩
      rw [h1]
      simp [applyRemoved, hsr]
    | ok u =>
      refine ⟨[SyncEvent.deleteRow rt.externalId,
               SyncEvent.auditLog "delete" rt.externalId env.auditOk,
               SyncEvent.metaSync rt.externalId env.metaOk] ++ ext, ?_, ?_, ?_⟩
      · rw [h1]
        simp [applyRemoved, hsr]
      · intro n hn
        rw [List.filterMap_append] at hn
        rcases List.mem_append.mp hn with hn | hn
        · simpa [mutPhase] using hn
        · exact h2 n hn
      · intro k hk
        rcases List.mem_append.mp hk with hk | hk
        · have hke : k = rt.externalId := by simpa using hk
          subst hke
          exact ⟨List.mem_append_left _ (by simp),
                 List.mem_append_left _ (by simp)⟩
        · obtain ⟨ha, hm⟩ := h3 k hk
          exact ⟨List.mem_append_right _ ha, List.mem_append_right _ hm⟩

theorem foldCommon_trace (env : SyncEnv) (uc : UserCred) (vpc : Vpc)
    (l : List (SRouteTable × ICloudRouteTable)) (st : SyncState) :
    ∃ ext, (l.foldl (applyCommon env uc vpc) st).trace = st.trace ++ ext ∧
      (∀ n ∈ ext.filterMap mutPhase, n = 1) ∧
      (∀ k, SyncEvent.updateRow k ∈ ext →
        SyncEvent.auditLog "update" k env.auditOk ∈ ext ∧
        SyncEvent.metaSync k env.metaOk ∈ ext) := by
  induction l generalizing st with
  | nil => exact ⟨[], by simp, by simp, by simp⟩
  | cons p t ih =>
    rw [List.foldl_cons]
    obtain ⟨ext, h1, h2, h3⟩ := ih (applyCommon env uc vpc st p)
    cases hsw : SyncWithCloudRouteTable env uc (st.store.map (fun x => x.name))
        vpc p.1 p.2 with
    | error e =>
      refine ⟨ext, ?_, h2, h3⟩
      rw [h1]
      simp [applyCommon, hsw]
    | ok nt =>
      refine ⟨[SyncEvent.updateRow p.1.externalId,
               SyncEvent.auditLog "update" p.1.externalId env.auditOk,
               SyncEvent.metaSync p.1.externalId env.metaOk] ++ ext, ?_, ?_, ?_⟩
      · rw [h1]
        simp [applyCommon, hsw]
      · intro n hn
        rw [List.filterMap_append] at hn
        rcases List.mem_append.mp hn with hn | hn
        · simpa [mutPhase] using hn
        · exact h2 n hn
      · intro k hk
        rcases List.mem_append.mp hk with hk | hk
        · have hke : k = p.1.externalId := by simpa using hk
          subst hke
          exact ⟨List.mem_append_left _ (by simp),
                 List.mem_append_left _ (by simp)⟩
        · obtain ⟨ha, hm⟩ := h3 k hk
          exact ⟨List.mem_append_right _ ha, List.mem_append_right _ hm⟩

theorem foldAdded_trace (env : SyncEnv) (uc : UserCred) (vpc : Vpc)
    (l : List ICloudRouteTable) (st : SyncState) :
    ∃ ext, (l.foldl (applyAdded env uc vpc) st).trace = st.trace ++ ext ∧
      (∀ n ∈ ext.filterMap mutPhase, n = 2) ∧
      (∀ k, SyncEvent.insertRow k ∈ ext →
        SyncEvent.auditLog "create" k env.auditOk ∈ ext ∧
        SyncEvent.metaSync k env.metaOk ∈ ext) := by
  induction l generalizing st with
  | nil => exact ⟨[], by simp, by simp, by simp⟩
  | cons c t ih =>
    rw [List.foldl_cons]
    obtain ⟨ext, h1, h2, h3⟩ := ih (applyAdded env uc vpc st c)
    cases hsi : insertFromCloud env uc (st.store.map (fun x => x.name)) vpc c with
    | error e =>
      refine ⟨ext, ?_, h2, h3⟩
      rw [h1]
      simp [applyAdded, hsi]
    | ok nt =>
      refine ⟨[SyncEvent.insertRow c.globalId,
               SyncEvent.auditLog "create" c.globalId env.auditOk,
               SyncEvent.metaSync c.globalId env.metaOk] ++ ext, ?_, ?_, ?_⟩
      · rw [h1]
        simp [applyAdded, hsi]
      · intro n hn
        rw [List.filterMap_append] at hn
        rcases List.mem_append.mp hn with hn | hn
        · simpa [mutPhase] using hn
        · exact h2 n hn
      · intro k hk
        rcases List.mem_append.mp hk with hk | hk
        · have hke : k = c.globalId := by simpa using hk
          subst hke
          exact ⟨List.mem_append_left _ (by simp),
                 List.mem_append_left _ (by simp)⟩
        · obtain ⟨ha, hm⟩ := h3 k hk
          exact ⟨List.mem_append_right _ ha, List.mem_append_right _ hm⟩

theorem pairwise_le_const {l : List Nat} {c : Nat} (h : ∀ n ∈ l, n = c) :
    l.Pairwise (fun a b => a ≤ b) := by
  induction l with
  | nil => exact List.Pairwise.nil
  | cons x t ih =>
    refine List.Pairwise.cons ?_ (ih (fun n hn => h n (List.mem_cons_of_mem _ hn)))
    intro y hy
    rw [h x (List.mem_cons_self x t), h y (List.mem_cons_of_mem _ hy)]

theorem pairwise_le_phases {l1 l2 l3 : List Nat}
    (h1 : ∀ n ∈ l1, n = 0) (h2 : ∀ n ∈ l2, n = 1) (h3 : ∀ n ∈ l3, n = 2) :
    ((l1 ++ l2) ++ l3).Pairwise (fun a b => a ≤ b) := by
  rw [List.pairwise_append]
  refine ⟨?_, pairwise_le_const h3, ?_⟩
  · rw [List.pairwise_append]
    refine ⟨pairwise_le_const h1, pairwise_le_const h2, ?_⟩
    intro a ha b hb
    rw [h1 a ha, h2 b hb]
    omega
  · intro a ha b hb
    rw [h3 b hb]
    rcases List.mem_append.mp ha with ha | ha
    · rw [h1 a ha]; omega
    · rw [h2 a ha]; omega

/-- C1: within one pass of `SyncRouteTables`, every deletion of a removed
local route table is applied before any update of a common pair, and every
update before any insertion of an added remote-only route table; mapping
each store mutation in the trace to its phase number (delete 0, update 1,
insert 2), the phase sequence is monotone, so no insert ever precedes a
delete or an update. -/
theorem C1_deletes_before_updates_before_inserts (env : SyncEnv)
    (uc : UserCred) (vpc : Vpc) (store : List SRouteTable)
    (clouds : List ICloudRouteTable) :
    ((SyncRouteTables env uc vpc store clouds).trace.filterMap mutPhase).Pairwise
      (fun a b => a ≤ b) := by
  cases hf : env.fetchErr with
  | some e => simp [SyncRouteTables, hf]
  | none =>
    cases hc : CompareSets (fun rt => rt.externalId) (fun c => c.globalId)
        (store.filter (fun rt => rt.vpcId == vpc.id)) clouds with
    | error e => simp [SyncRouteTables, hf, hc]
    | ok trip =>
      obtain ⟨removed, pairs, added⟩ := trip
      simp only [SyncRouteTables, hf, hc]
      obtain ⟨e1, t1, p1, -⟩ :=
        foldRemoved_trace env removed ⟨store, [], [], SyncResult.empty, []⟩
      obtain ⟨e2, t2, p2, -⟩ := foldCommon_trace env uc vpc pairs
        (removed.foldl (applyRemoved env) ⟨store, [], [], SyncResult.empty, []⟩)
      obtain ⟨e3, t3, p3, -⟩ := foldAdded_trace env uc vpc added
        (pairs.foldl (applyCommon env uc vpc)
          (removed.foldl (applyRemoved env) ⟨store, [], [], SyncResult.empty, []⟩))
      rw [t3, t2, t1]
      simp only [List.nil_append, List.filterMap_append]
      exact pairwise_le_phases p1 p2 p3

/-- C2: a per-item failure never aborts a pass of `SyncRouteTables`: when
the initial fetch and the set comparison succeed, every removed, common and
added item is processed — each one accounted for either by its success
counter or by a recorded per-category error — and no pass-level error is
recorded; the pass still returns result lists rather than aborting. -/
theorem C2_partial_failure_isolation (env : SyncEnv) (uc : UserCred)
    (vpc : Vpc) (store : List SRouteTable) (clouds : List ICloudRouteTable)
    (removed : List SRouteTable) (pairs : List (SRouteTable × ICloudRouteTable))
    (added : List ICloudRouteTable)
    (hf : env.fetchErr = none)
    (hc : CompareSets (fun rt => rt.externalId) (fun c => c.globalId)
            (store.filter (fun rt => rt.vpcId == vpc.id)) clouds
          = Except.ok (removed, pairs, added)) :
    ((SyncRouteTables env uc vpc store clouds).result.delCnt
        + (SyncRouteTables env uc vpc store clouds).result.delErrors.length
      = removed.length) ∧
    ((SyncRouteTables env uc vpc store clouds).result.updateCnt
        + (SyncRouteTables env uc vpc store clouds).result.updateErrors.length
      = pairs.length) ∧
    ((SyncRouteTables env uc vpc store clouds).result.addCnt
        + (SyncRouteTables env uc vpc store clouds).result.addErrors.length
      = added.length) ∧
    (SyncRouteTables env uc vpc store clouds).result.passErrors = [] ∧
    (SyncRouteTables env uc vpc store clouds).localTables.isSome = true := by
  simp only [SyncRouteTables, hf, hc]
  obtain ⟨d1, d2, d3, d4, d5, d6⟩ :=
    foldRemoved_result env removed ⟨store, [], [], SyncResult.empty, []⟩
  obtain ⟨u1, u2, u3, u4, u5, u6⟩ := foldCommon_result env uc vpc pairs
    (removed.foldl (applyRemoved env) ⟨store, [], [], SyncResult.empty, []⟩)
  obtain ⟨a1, a2, a3, a4, a5, a6⟩ := foldAdded_result env uc vpc added
    (pairs.foldl (applyCommon env uc vpc)
      (removed.foldl (applyRemoved env) ⟨store, [], [], SyncResult.empty, []⟩))
  refine ⟨?_, ?_, ?_, ?_, rfl⟩
  · rw [a2, a3, u2, u3]
    simpa [SyncResult.empty] using d1
  · rw [a4, a5]
    rw [u1, d2, d3]
    simp [SyncResult.empty]
  · rw [a1, u4, u5, d4, d5]
    simp [SyncResult.empty]
  · rw [a6, u6, d6]
    simp [SyncResult.empty]

/-- Witness for C2: in the five-delete scenario where exactly the row K3
fails delete validation, all five items are processed, the result reports
four deletes and one delete error, and no pass-level error. -/
theorem C2_partial_failure_isolation_witness :
    (((SyncRouteTables exEnv5 exCred exVpc
        [exRow5 "K1", exRow5 "K2", exRow5 "K3", exRow5 "K4", exRow5 "K5"]
        []).result.delCnt
      + (SyncRouteTables exEnv5 exCred exVpc
        [exRow5 "K1", exRow5 "K2", exRow5 "K3", exRow5 "K4", exRow5 "K5"]
        []).result.delErrors.length) = 5) ∧
    (SyncRouteTables exEnv5 exCred exVpc
        [exRow5 "K1", exRow5 "K2", exRow5 "K3", exRow5 "K4", exRow5 "K5"]
        []).result.delCnt = 4 ∧
    (SyncRouteTables exEnv5 exCred exVpc
        [exRow5 "K1", exRow5 "K2", exRow5 "K3", exRow5 "K4", exRow5 "K5"]
        []).result.delErrors = ["in use"] := by
  refine ⟨?_, by decide, by decide⟩
  exact (C2_partial_failure_isolation exEnv5 exCred exVpc
    [exRow5 "K1", exRow5 "K2", exRow5 "K3", exRow5 "K4", exRow5 "K5"] []
    [exRow5 "K1", exRow5 "K2", exRow5 "K3", exRow5 "K4", exRow5 "K5"] [] []
    rfl rfl).1

/-- C10: when the initial fetch of local route tables fails, or the set
comparison itself fails, `SyncRouteTables` aborts atomically: it returns
nil local and remote result lists and a `SyncResult` carrying exactly that
one pass-level error, with the local store untouched and no mutation event
in the trace. -/
theorem C10_pass_level_abort (env : SyncEnv) (uc : UserCred) (vpc : Vpc)
    (store : List SRouteTable) (clouds : List ICloudRouteTable) :
    (∀ e, env.fetchErr = some e →
       SyncRouteTables env uc vpc store clouds
         = ⟨none, none, ⟨0, 0, 0, [], [], [], [e]⟩, store, []⟩) ∧
    (∀ e, env.fetchErr = none →
       CompareSets (fun rt => rt.externalId) (fun c => c.globalId)
           (store.filter (fun rt => rt.vpcId == vpc.id)) clouds
         = Except.error e →
       SyncRouteTables env uc vpc store clouds
         = ⟨none, none, ⟨0, 0, 0, [], [], [], [e]⟩, store, []⟩) := by
  constructor
  · intro e hf
    simp [SyncRouteTables, hf, SyncResult.empty, SyncResult.error]
  · intro e hf hc
    simp [SyncRouteTables, hf, hc, SyncResult.empty, SyncResult.error]

/-- Witness for C10: a failing fetch aborts with that single pass error and
an unchanged store; a duplicate local external id makes the comparison fail
and equally aborts with no mutation. -/
theorem C10_pass_level_abort_witness :
    exEnvFetchFail.fetchErr = some "query failed" ∧
    SyncRouteTables exEnvFetchFail exCred exVpc [exRowA] []
      = ⟨none, none, ⟨0, 0, 0, [], [], [], ["query failed"]⟩, [exRowA], []⟩ ∧
    okEnv.fetchErr = none ∧
    CompareSets (fun rt => rt.externalId) (fun c => c.globalId)
        (exDupStore.filter (fun rt => rt.vpcId == exVpc.id))
        ([] : List ICloudRouteTable)
      = Except.error "AmbiguousKeyError: duplicate key on the local side" ∧
    SyncRouteTables okEnv exCred exVpc exDupStore []
      = ⟨none, none,
         ⟨0, 0, 0, [], [], [],
          ["AmbiguousKeyError: duplicate key on the local side"]⟩,
         exDupStore, []⟩ := by
  refine ⟨rfl, ?_, rfl, rfl, ?_⟩
  · exact (C10_pass_level_abort exEnvFetchFail exCred exVpc [exRowA] []).1
      "query failed" rfl
  · exact (C10_pass_level_abort okEnv exCred exVpc exDupStore []).2
      "AmbiguousKeyError: duplicate key on the local side" rfl rfl

/-- C3: in the spec section 8 route-table scenario — local external ids A
and B, remote B and C — the comparison yields removed A, common pair B,
added C, and after the apply phase the local store contains exactly the
updated B row and the inserted C row, with A deleted; the result counts one
delete, one update and one add. -/
theorem C3_concrete_route_table_scenario :
    CompareSets (fun rt => rt.externalId) (fun c => c.globalId)
        [exRowA, exRowB] [exRemB, exRemC]
      = Except.ok ([exRowA], [(exRowB, exRemB)], [exRemC]) ∧
    (SyncRouteTables okEnv exCred exVpc [exRowA, exRowB] [exRemB, exRemC]).store
      = [exRowBUpdated, exRowCNew] ∧
    (SyncRouteTables okEnv exCred exVpc [exRowA, exRowB] [exRemB, exRemC]).localTables
      = some [exRowBUpdated, exRowCNew] ∧
    (SyncRouteTables okEnv exCred exVpc [exRowA, exRowB] [exRemB, exRemC]).result
      = ⟨1, 1, 1, [], [], [], []⟩ := by
  refine ⟨rfl, rfl, rfl, rfl⟩

theorem applyRemoved_data (env : SyncEnv) (b b' : Bool) (st1 st2 : SyncState)
    (rt : SRouteTable) (h : st1.data = st2.data) :
    (applyRemoved (env.withFlags b b') st2 rt).data
      = (applyRemoved env st1 rt).data := by
  simp only [SyncState.data, Prod.mk.injEq] at h
  obtain ⟨hs, hl, hr, hres⟩ := h
  have hfe : syncRemoveCloudRouteTable (env.withFlags b b') rt
      = syncRemoveCloudRouteTable env rt := rfl
  unfold applyRemoved
  rw [hfe]
  cases syncRemoveCloudRouteTable env rt with
  | error e => simp [SyncState.data, hs, hl, hr, hres]
  | ok u => simp [SyncState.data, hs, hl, hr, hres]

theorem applyCommon_data (env : SyncEnv) (b b' : Bool) (uc : UserCred)
    (vpc : Vpc) (st1 st2 : SyncState) (p : SRouteTable × ICloudRouteTable)
    (h : st1.data = st2.data) :
    (applyCommon (env.withFlags b b') uc vpc st2 p).data
      = (applyCommon env uc vpc st1 p).data := by
  simp only [SyncState.data, Prod.mk.injEq] at h
  obtain ⟨hs, hl, hr, hres⟩ := h
  have hfe : ∀ n, SyncWithCloudRouteTable (env.withFlags b b') uc n vpc p.1 p.2
      = SyncWithCloudRouteTable env uc n vpc p.1 p.2 := fun n => rfl
  unfold applyCommon
  rw [hfe, ← hs]
  cases SyncWithCloudRouteTable env uc (st1.store.map (fun x => x.name))
      vpc p.1 p.2 with
  | error e => simp [SyncState.data, hs, hl, hr, hres]
  | ok nt => simp [SyncState.data, hs, hl, hr, hres]

theorem applyAdded_data (env : SyncEnv) (b b' : Bool) (uc : UserCred)
    (vpc : Vpc) (st1 st2 : SyncState) (c : ICloudRouteTable)
    (h : st1.data = st2.data) :
    (applyAdded (env.withFlags b b') uc vpc st2 c).data
      = (applyAdded env uc vpc st1 c).data := by
  simp only [SyncState.data, Prod.mk.injEq] at h
  obtain ⟨hs, hl, hr, hres⟩ := h
  have hfe : ∀ n, insertFromCloud (env.withFlags b b') uc n vpc c
      = insertFromCloud env uc n vpc c := fun n => rfl
  unfold applyAdded
  rw [hfe, ← hs]
  cases insertFromCloud env uc (st1.store.map (fun x => x.name)) vpc c with
  | error e => simp [SyncState.data, hs, hl, hr, hres]
  | ok nt => simp [SyncState.data, hs, hl, hr, hres]

theorem foldRemoved_data (env : SyncEnv) (b b' : Bool) (l : List SRouteTable)
    (st1 st2 : SyncState) (h : st1.data = st2.data) :
    (l.foldl (applyRemoved (env.withFlags b b')) st2).data
      = (l.foldl (applyRemoved env) st1).data := by
  induction l generalizing st1 st2 with
  | nil => exact h.symm
  | cons rt t ih => exact ih _ _ (applyRemoved_data env b b' st1 st2 rt h).symm

theorem foldCommon_data (env : SyncEnv) (b b' : Bool) (uc : UserCred)
    (vpc : Vpc) (l : List (SRouteTable × ICloudRouteTable))
    (st1 st2 : SyncState) (h : st1.data = st2.data) :
    (l.foldl (applyCommon (env.withFlags b b') uc vpc) st2).data
      = (l.foldl (applyCommon env uc vpc) st1).data := by
  induction l generalizing st1 st2 with
  | nil => exact h.symm
  | cons p t ih => exact ih _ _ (applyCommon_data env b b' uc vpc st1 st2 p h).symm

theorem foldAdded_data (env : SyncEnv) (b b' : Bool) (uc : UserCred)
    (vpc : Vpc) (l : List ICloudRouteTable)
    (st1 st2 : SyncState) (h : st1.data = st2.data) :
    (l.foldl (applyAdded (env.withFlags b b') uc vpc) st2).data
      = (l.foldl (applyAdded env uc vpc) st1).data := by
  induction l generalizing st1 st2 with
  | nil => exact h.symm
  | cons c t ih => exact ih _ _ (applyAdded_data env b b' uc vpc st1 st2 c h).symm

/-- C8: every successful delete, update and insert of a pass leaves an
audit log append and a metadata synchronization in the trace (the audit and
metadata calls of the delete path live inside the db layer, outside the
provided sources, and are modelled from the spec); and these side effects
are fire-and-forget — changing whether the audit/metadata calls succeed
changes neither the returned lists, nor the sync result, nor the final
store. -/
theorem C8_audit_side_effects_no_rollback (env : SyncEnv) (uc : UserCred)
    (vpc : Vpc) (store : List SRouteTable) (clouds : List ICloudRouteTable)
    (b b' : Bool) :
    (∀ k,
      (SyncEvent.deleteRow k ∈ (SyncRouteTables env uc vpc store clouds).trace →
        SyncEvent.auditLog "delete" k env.auditOk
            ∈ (SyncRouteTables env uc vpc store clouds).trace ∧
        SyncEvent.metaSync k env.metaOk
            ∈ (SyncRouteTables env uc vpc store clouds).trace) ∧
      (SyncEvent.updateRow k ∈ (SyncRouteTables env uc vpc store clouds).trace →
        SyncEvent.auditLog "update" k env.auditOk
            ∈ (SyncRouteTables env uc vpc store clouds).trace ∧
        SyncEvent.metaSync k env.metaOk
            ∈ (SyncRouteTables env uc vpc store clouds).trace) ∧
      (SyncEvent.insertRow k ∈ (SyncRouteTables env uc vpc store clouds).trace →
        SyncEvent.auditLog "create" k env.auditOk
            ∈ (SyncRouteTables env uc vpc store clouds).trace ∧
        SyncEvent.metaSync k env.metaOk
            ∈ (SyncRouteTables env uc vpc store clouds).trace)) ∧
    ((SyncRouteTables (env.withFlags b b') uc vpc store clouds).localTables
        = (SyncRouteTables env uc vpc store clouds).localTables ∧
     (SyncRouteTables (env.withFlags b b') uc vpc store clouds).remoteTables
        = (SyncRouteTables env uc vpc store clouds).remoteTables ∧
     (SyncRouteTables (env.withFlags b b') uc vpc store clouds).result
        = (SyncRouteTables env uc vpc store clouds).result ∧
     (SyncRouteTables (env.withFlags b b') uc vpc store clouds).store
        = (SyncRouteTables env uc vpc store clouds).store) := by
  have hffe : (env.withFlags b b').fetchErr = env.fetchErr := rfl
  cases hf : env.fetchErr with
  | some e =>
    constructor
    · intro k
      refine ⟨?_, ?_, ?_⟩ <;> · intro hk; simp [SyncRouteTables, hf] at hk
    · simp [SyncRouteTables, hffe, hf]
  | none =>
    cases hc : CompareSets (fun rt => rt.externalId) (fun c => c.globalId)
        (store.filter (fun rt => rt.vpcId == vpc.id)) clouds with
    | error e =>
      constructor
      · intro k
        refine ⟨?_, ?_, ?_⟩ <;> · intro hk; simp [SyncRouteTables, hf, hc] at hk
      · simp [SyncRouteTables, hffe, hf, hc]
    | ok trip =>
      obtain ⟨removed, pairs, added⟩ := trip
      constructor
      · intro k
        simp only [SyncRouteTables, hf, hc]
        obtain ⟨e1, t1, p1, a1⟩ :=
          foldRemoved_trace env removed ⟨store, [], [], SyncResult.empty, []⟩
        obtain ⟨e2, t2, p2, a2⟩ := foldCommon_trace env uc vpc pairs
          (removed.foldl (applyRemoved env) ⟨store, [], [], SyncResult.empty, []⟩)
        obtain ⟨e3, t3, p3, a3⟩ := foldAdded_trace env uc vpc added
          (pairs.foldl (applyCommon env uc vpc)
            (removed.foldl (applyRemoved env) ⟨store, [], [], SyncResult.empty, []⟩))
        rw [t3, t2, t1]
        simp only [List.nil_append]
        refine ⟨?_, ?_, ?_⟩
        · intro hk
          rcases List.mem_append.mp hk with hk | hk
          · rcases List.mem_append.mp hk with hk | hk
            · obtain ⟨ha, hm⟩ := a1 k hk
              exact ⟨List.mem_append_left _ (List.mem_append_left _ ha),
                     List.mem_append_left _ (List.mem_append_left _ hm)⟩
            · have h0 := p2 0 (List.mem_filterMap.mpr ⟨_, hk, rfl⟩)
              cases h0
          · have h0 := p3 0 (List.mem_filterMap.mpr ⟨_, hk, rfl⟩)
            cases h0
        · intro hk
          rcases List.mem_append.mp hk with hk | hk
          · rcases List.mem_append.mp hk with hk | hk
            · have h1 := p1 1 (List.mem_filterMap.mpr ⟨_, hk, rfl⟩)
              cases h1
            · obtain ⟨ha, hm⟩ := a2 k hk
              exact ⟨List.mem_append_left _ (List.mem_append_right _ ha),
                     List.mem_append_left _ (List.mem_append_right _ hm)⟩
          · have h1 := p3 1 (List.mem_filterMap.mpr ⟨_, hk, rfl⟩)
            cases h1
        · intro hk
          rcases List.mem_append.mp hk with hk | hk
          · rcases List.mem_append.mp hk with hk | hk
            · have h2 := p1 2 (List.mem_filterMap.mpr ⟨_, hk, rfl⟩)
              cases h2
            · have h2 := p2 2 (List.mem_filterMap.mpr ⟨_, hk, rfl⟩)
              cases h2
          · obtain ⟨ha, hm⟩ := a3 k hk
            exact ⟨List.mem_append_right _ ha, List.mem_append_right _ hm⟩
      · simp only [SyncRouteTables, hffe, hf, hc]
        have hd1 := foldRemoved_data env b b' removed
          ⟨store, [], [], SyncResult.empty, []⟩
          ⟨store, [], [], SyncResult.empty, []⟩ rfl
        have hd2 := foldCommon_data env b b' uc vpc pairs _ _ hd1.symm
        have hdata := foldAdded_data env b b' uc vpc added _ _ hd2.symm
        simp only [SyncState.data, Prod.mk.injEq] at hdata
        obtain ⟨hs, hl, hr, hres⟩ := hdata
        exact ⟨congrArg some hl, congrArg some hr, hres, hs⟩

/-- Witness for C8: in the concrete A/B versus B/C scenario the trace holds
a delete of A, an update of B and an insert of C, each followed by its
audit and metadata events; flipping the audit/metadata outcome flags leaves
store and result unchanged. -/
theorem C8_audit_side_effects_no_rollback_witness :
    SyncEvent.deleteRow "A"
        ∈ (SyncRouteTables okEnv exCred exVpc [exRowA, exRowB]
            [exRemB, exRemC]).trace ∧
    SyncEvent.auditLog "delete" "A" okEnv.auditOk
        ∈ (SyncRouteTables okEnv exCred exVpc [exRowA, exRowB]
            [exRemB, exRemC]).trace ∧
    SyncEvent.metaSync "A" okEnv.metaOk
        ∈ (SyncRouteTables okEnv exCred exVpc [exRowA, exRowB]
            [exRemB, exRemC]).trace ∧
    (SyncRouteTables (okEnv.withFlags false false) exCred exVpc
        [exRowA, exRowB] [exRemB, exRemC]).store
      = (SyncRouteTables okEnv exCred exVpc [exRowA, exRowB]
          [exRemB, exRemC]).store := by
  have h := C8_audit_side_effects_no_rollback okEnv exCred exVpc
    [exRowA, exRowB] [exRemB, exRemC] false false
  have hmem : SyncEvent.deleteRow "A"
      ∈ (SyncRouteTables okEnv exCred exVpc [exRowA, exRowB]
          [exRemB, exRemC]).trace := by decide
  obtain ⟨ha, hm⟩ := (h.1 "A").1 hmem
  exact ⟨hmem, ha, hm, h.2.2.2.2⟩

theorem GenerateNameAux_suffix (names : List String) (base : String) :
    ∀ fuel k, ∃ j : Nat, GenerateNameAux names base fuel k
      = base ++ "-" ++ toString j := by
  intro fuel
  induction fuel with
  | zero => intro k; exact ⟨k, rfl⟩
  | succ n ih =>
    intro k
    unfold GenerateNameAux
    split
    · exact ih (k + 1)
    · exact ⟨k, rfl⟩

/-- C9: a remote-only route table is inserted under a name generated
deterministically from a basename — the remote name when non-empty, else
"rtbl-" plus the VPC name, else "rtbl" — with a uniqueness suffix on
collision; the added loop records an `Add` on a successful insert and an
`AddError` on a failed one, leaving the store untouched in the latter
case. -/
theorem C9_added_resource_naming (env : SyncEnv) (uc : UserCred) (vpc : Vpc)
    (names : List String) (c : ICloudRouteTable) (st : SyncState)
    (base : String) :
    (c.name ≠ "" → routeTableBasename c.name vpc.name = c.name) ∧
    (c.name = "" → vpc.name ≠ "" →
       routeTableBasename c.name vpc.name = "rtbl-" ++ vpc.name) ∧
    (c.name = "" → vpc.name = "" → routeTableBasename c.name vpc.name = "rtbl") ∧
    (names.contains base = false → GenerateName names base = base) ∧
    (names.contains base = true →
       ∃ j : Nat, GenerateName names base = base ++ "-" ++ toString j) ∧
    (env.getIRoutesErr c = none →
       ∃ rt, newRouteTableFromCloud env uc names vpc c = Except.ok rt ∧
         rt.name = GenerateName names (routeTableBasename c.name vpc.name) ∧
         rt.externalId = c.globalId ∧ rt.vpcId = vpc.id) ∧
    (∀ e, insertFromCloud env uc (st.store.map (fun x => x.name)) vpc c
            = Except.error e →
       (applyAdded env uc vpc st c).result = st.result.addError e ∧
       (applyAdded env uc vpc st c).store = st.store) ∧
    (∀ nt, insertFromCloud env uc (st.store.map (fun x => x.name)) vpc c
            = Except.ok nt →
       (applyAdded env uc vpc st c).result = st.result.add ∧
       (applyAdded env uc vpc st c).store = st.store ++ [nt]) := by
  refine ⟨?_, ?_, ?_, ?_, ?_, ?_, ?_, ?_⟩
  · intro h
    simp [routeTableBasename, h]
  · intro h1 h2
    simp [routeTableBasename, h1, h2]
  · intro h1 h2
    simp [routeTableBasename, h1, h2]
  · intro h
    unfold GenerateName
    rw [h]
    simp
  · intro h
    unfold GenerateName
    rw [h]
    simpa using GenerateNameAux_suffix names base (names.length + 1) 1
  · intro h
    refine ⟨⟨GenerateName names (routeTableBasename c.name vpc.name), c.type,
             c.routes, vpc.id, c.globalId, c.description, uc.projectId,
             uc.domainId⟩, ?_, rfl, rfl, rfl⟩
    simp [newRouteTableFromCloud, h]
  · intro e h
    unfold applyAdded
    rw [h]
    exact ⟨rfl, rfl⟩
  · intro nt h
    unfold applyAdded
    rw [h]
    exact ⟨rfl, rfl⟩

/-- Witness for C9: concrete instances of each naming rule, of the
uniqueness suffix on a collision, and of the recorded `Add` for the
inserted C row of the concrete scenario. -/
theorem C9_added_resource_naming_witness :
    ("nC" : String) ≠ "" ∧ routeTableBasename "nC" "myvpc" = "nC" ∧
    routeTableBasename "" "myvpc" = "rtbl-myvpc" ∧
    routeTableBasename "" "" = "rtbl" ∧
    GenerateName ["x"] "rtbl" = "rtbl" ∧
    (∃ j : Nat, GenerateName ["rtbl"] "rtbl" = "rtbl" ++ "-" ++ toString j) ∧
    (∃ rt, newRouteTableFromCloud okEnv exCred ["nA", "nB"] exVpc exRemC
        = Except.ok rt ∧
      rt.name = GenerateName ["nA", "nB"] (routeTableBasename "nC" "myvpc") ∧
      rt.externalId = "C" ∧ rt.vpcId = "vpc1") := by
  have h1 := C9_added_resource_naming okEnv exCred exVpc ["x"] exRemC
    ⟨[], [], [], SyncResult.empty, []⟩ "rtbl"
  have h2 := C9_added_resource_naming okEnv exCred exVpc ["rtbl"] exRemC
    ⟨[], [], [], SyncResult.empty, []⟩ "rtbl"
  have h3 := C9_added_resource_naming okEnv exCred exVpc ["nA", "nB"] exRemC
    ⟨[], [], [], SyncResult.empty, []⟩ "rtbl"
  have h4 := C9_added_resource_naming okEnv exCred
    (⟨"vpc1", ""⟩ : Vpc) [] exRemC ⟨[], [], [], SyncResult.empty, []⟩ "rtbl"
  refine ⟨by decide, ?_, ?_, ?_, ?_, ?_, ?_⟩
  · exact h1.1 (by decide)
  · have := (C9_added_resource_naming okEnv exCred exVpc []
      (⟨"C", "", "t", "dC", []⟩ : ICloudRouteTable)
      ⟨[], [], [], SyncResult.empty, []⟩ "rtbl").2.1 rfl (by decide)
    simpa using this
  · have := (C9_added_resource_naming okEnv exCred (⟨"vpc1", ""⟩ : Vpc) []
      (⟨"C", "", "t", "dC", []⟩ : ICloudRouteTable)
      ⟨[], [], [], SyncResult.empty, []⟩ "rtbl").2.2.1 rfl rfl
    simpa using this
  · exact h1.2.2.2.1 (by decide)
  · exact h2.2.2.2.2.1 (by decide)
  · exact h3.2.2.2.2.2.1 rfl

theorem csPairs_map_fst {α β : Type} (lk : α → String) (rk : β → String)
    (locs : List α) (rems : List β) :
    (csPairs lk rk locs rems).map Prod.fst
      = locs.filter (fun a => rems.any (fun b => rk b == lk a)) := by
  induction locs with
  | nil => rfl
  | cons a t ih =>
    unfold csPairs at ih ⊢
    rw [List.filterMap_cons]
    cases hfind : rems.find? (fun b => rk b == lk a) with
    | none =>
      have hany : rems.any (fun b => rk b == lk a) = false := by
        rw [← Bool.not_eq_true, List.any_eq_true]
        rintro ⟨x, hx, hp⟩
        exact (List.find?_eq_none.mp hfind x hx) hp
      simp [hfind, List.filter_cons, hany, ih]
    | some b =>
      have hpb : (rk b == lk a) = true := by
        have hp := List.find?_some hfind
        simpa using hp
      have hany : rems.any (fun b => rk b == lk a) = true :=
        List.any_eq_true.mpr ⟨b, List.mem_of_find?_eq_some hfind, hpb⟩
      simp [hfind, List.filter_cons, hany, ih]

theorem mem_csPairs {α β : Type} (lk : α → String) (rk : β → String)
    (locs : List α) (rems : List β) (x : α × β)
    (hx : x ∈ csPairs lk rk locs rems) :
    x.1 ∈ locs ∧ x.2 ∈ rems ∧ rk x.2 = lk x.1 := by
  unfold csPairs at hx
  obtain ⟨a, ha, hfa⟩ := List.mem_filterMap.mp hx
  obtain ⟨b, hfind, hab⟩ := Option.map_eq_some'.mp hfa
  subst hab
  refine ⟨ha, List.mem_of_find?_eq_some hfind, ?_⟩
  have hp := List.find?_some hfind
  simpa [beq_iff_eq] using hp

theorem csPairs_snd_perm {α β : Type} [DecidableEq β]
    (lk : α → String) (rk : β → String) (locs : List α) (rems : List β)
    (h1 : (locs.map lk).Nodup) (h2 : (rems.map rk).Nodup) :
    ((csPairs lk rk locs rems).map Prod.snd).Perm
      (rems.filter (fun b => locs.any (fun a => lk a == rk b))) := by
  have hfst := csPairs_map_fst lk rk locs rems
  have ndfstkeys : (((csPairs lk rk locs rems).map Prod.fst).map lk).Nodup := by
    rw [hfst]
    exact List.Nodup.sublist (List.Sublist.map lk (List.filter_sublist locs)) h1
  have hkeys : (((csPairs lk rk locs rems).map Prod.snd).map rk)
      = (((csPairs lk rk locs rems).map Prod.fst).map lk) := by
    rw [List.map_map, List.map_map]
    apply List.map_congr_left
    intro p hp
    exact (mem_csPairs lk rk locs rems p hp).2.2
  have ndsnd : ((csPairs lk rk locs rems).map Prod.snd).Nodup :=
    List.Nodup.of_map rk (hkeys ▸ ndfstkeys)
  have ndfilter :
      (rems.filter (fun b => locs.any (fun a => lk a == rk b))).Nodup :=
    List.Nodup.filter _ (List.Nodup.of_map rk h2)
  have hmemiff : ∀ b, b ∈ (csPairs lk rk locs rems).map Prod.snd
      ↔ b ∈ rems.filter (fun b => locs.any (fun a => lk a == rk b)) := by
    intro b
    constructor
    · intro hb
      obtain ⟨p, hp, hpb⟩ := List.mem_map.mp hb
      obtain ⟨hp1, hp2, hp3⟩ := mem_csPairs lk rk locs rems p hp
      subst hpb
      refine List.mem_filter.mpr ⟨hp2, ?_⟩
      exact List.any_eq_true.mpr ⟨p.1, hp1, beq_iff_eq.mpr hp3.symm⟩
    · intro hb
      obtain ⟨hbm, hbany⟩ := List.mem_filter.mp hb
      obtain ⟨a, ha, hab⟩ := List.any_eq_true.mp hbany
      have habe : lk a = rk b := beq_iff_eq.mp hab
      cases hfind : rems.find? (fun b' => rk b' == lk a) with
      | none =>
        exact absurd (beq_iff_eq.mpr habe.symm)
          (List.find?_eq_none.mp hfind b hbm)
      | some b' =>
        have hb'k : rk b' = lk a := by
          have hp := List.find?_some hfind
          simpa [beq_iff_eq] using hp
        have hb'm : b' ∈ rems := List.mem_of_find?_eq_some hfind
        have hbb' : b' = b :=
          List.inj_on_of_nodup_map h2 hb'm hbm (by rw [hb'k, habe])
        subst hbb'
        refine List.mem_map.mpr ⟨(a, b'), ?_, rfl⟩
        unfold csPairs
        exact List.mem_filterMap.mpr ⟨a, ha, by rw [hfind]; rfl⟩
  apply List.perm_of_nodup_nodup_toFinset_eq ndsnd ndfilter
  apply Finset.ext
  intro b
  rw [List.mem_toFinset, List.mem_toFinset]
  exact hmemiff b

/-- C4: for duplicate-free keys on both sides, the Set Comparator places
every input element in exactly one output bucket — removed, one of the
matched common pairs, or added — with no element duplicated and none
dropped: removed plus the local halves of the pairs is a permutation of the
local input, the remote halves plus added is a permutation of the remote
input, the bucket sizes satisfy the partition-completeness equation, and
the keys across the three partitions are duplicate-free and cover exactly
the input keys. -/
theorem C4_partition_completeness {α β : Type} [DecidableEq β]
    (lk : α → String) (rk : β → String) (locs : List α) (rems : List β)
    (h1 : (locs.map lk).Nodup) (h2 : (rems.map rk).Nodup) :
    ∃ removed pairs added,
      CompareSets lk rk locs rems = Except.ok (removed, pairs, added) ∧
      (removed ++ pairs.map Prod.fst).Perm locs ∧
      (pairs.map Prod.snd ++ added).Perm rems ∧
      removed.length + pairs.length + added.length
        = locs.length + rems.length - pairs.length ∧
      (removed.map lk ++ pairs.map (fun p => lk p.1) ++ added.map rk).Nodup ∧
      (∀ k, k ∈ removed.map lk ++ pairs.map (fun p => lk p.1) ++ added.map rk
            ↔ k ∈ locs.map lk ∨ k ∈ rems.map rk) := by
  have hperm1 : ((csRemoved lk rk locs rems)
      ++ (csPairs lk rk locs rems).map Prod.fst).Perm locs := by
    rw [csPairs_map_fst]
    exact List.Perm.trans List.perm_append_comm
      (List.filter_append_perm (fun a => rems.any (fun b => rk b == lk a)) locs)
  have hperm2 : ((csPairs lk rk locs rems).map Prod.snd
      ++ csAdded lk rk locs rems).Perm rems :=
    List.Perm.trans
      (List.Perm.append (csPairs_snd_perm lk rk locs rems h1 h2)
        (List.Perm.refl (csAdded lk rk locs rems)))
      (List.filter_append_perm (fun b => locs.any (fun a => lk a == rk b)) rems)
  have e1 : (csRemoved lk rk locs rems).length
      + (csPairs lk rk locs rems).length = locs.length := by
    have hlen := hperm1.length_eq
    rw [List.length_append, List.length_map] at hlen
    exact hlen
  have e2 : (csPairs lk rk locs rems).length
      + (csAdded lk rk locs rems).length = rems.length := by
    have hlen := hperm2.length_eq
    rw [List.length_append, List.length_map] at hlen
    exact hlen
  refine ⟨csRemoved lk rk locs rems, csPairs lk rk locs rems,
          csAdded lk rk locs rems, ?_, hperm1, hperm2, by omega, ?_, ?_⟩
  · unfold CompareSets
    rw [if_pos h1, if_pos h2]
  · have ndR : ((csRemoved lk rk locs rems).map lk).Nodup :=
      List.Nodup.sublist (List.Sublist.map lk (List.filter_sublist locs)) h1
    have hPkeys : (csPairs lk rk locs rems).map (fun p => lk p.1)
        = ((csPairs lk rk locs rems).map Prod.fst).map lk := by
      rw [List.map_map]
      rfl
    have ndP : ((csPairs lk rk locs rems).map (fun p => lk p.1)).Nodup := by
      rw [hPkeys, csPairs_map_fst]
      exact List.Nodup.sublist (List.Sublist.map lk (List.filter_sublist locs)) h1
    have ndA : ((csAdded lk rk locs rems).map rk).Nodup :=
      List.Nodup.sublist (List.Sublist.map rk (List.filter_sublist rems)) h2
    have d12 : List.Disjoint ((csRemoved lk rk locs rems).map lk)
        ((csPairs lk rk locs rems).map (fun p => lk p.1)) := by
      intro k hkR hkP
      obtain ⟨a1, ha1, rfl⟩ := List.mem_map.mp hkR
      obtain ⟨p, hp, hpk⟩ := List.mem_map.mp hkP
      obtain ⟨hpm1, hpm2, hpm3⟩ := mem_csPairs lk rk locs rems p hp
      have hanyp : rems.any (fun b => rk b == lk p.1) = true :=
        List.any_eq_true.mpr ⟨p.2, hpm2, beq_iff_eq.mpr hpm3⟩
      rw [hpk] at hanyp
      have hneg := (List.mem_filter.mp ha1).2
      simp only [Bool.not_eq_true'] at hneg
      rw [hanyp] at hneg
      cases hneg
    have d13 : List.Disjoint ((csRemoved lk rk locs rems).map lk)
        ((csAdded lk rk locs rems).map rk) := by
      intro k hkR hkA
      obtain ⟨a, ha, rfl⟩ := List.mem_map.mp hkR
      obtain ⟨b, hb, hbk⟩ := List.mem_map.mp hkA
      have hbf := List.mem_filter.mp hb
      have hany : rems.any (fun b' => rk b' == lk a) = true :=
        List.any_eq_true.mpr ⟨b, hbf.1, beq_iff_eq.mpr hbk⟩
      have hneg := (List.mem_filter.mp ha).2
      simp only [Bool.not_eq_true'] at hneg
      rw [hany] at hneg
      cases hneg
    have d23 : List.Disjoint ((csPairs lk rk locs rems).map (fun p => lk p.1))
        ((csAdded lk rk locs rems).map rk) := by
      intro k hkP hkA
      obtain ⟨p, hp, rfl⟩ := List.mem_map.mp hkP
      obtain ⟨b, hb, hbk⟩ := List.mem_map.mp hkA
      obtain ⟨hpm1, hpm2, hpm3⟩ := mem_csPairs lk rk locs rems p hp
      have hbf := List.mem_filter.mp hb
      have hany : locs.any (fun a => lk a == rk b) = true :=
        List.any_eq_true.mpr ⟨p.1, hpm1, beq_iff_eq.mpr hbk.symm⟩
      have hneg := hbf.2
      simp only [Bool.not_eq_true'] at hneg
      rw [hany] at hneg
      cases hneg
    refine List.Nodup.append (List.Nodup.append ndR ndP d12) ndA ?_
    rw [List.disjoint_append_left]
    exact ⟨d13, d23⟩
  · intro k
    constructor
    · intro hk
      rcases List.mem_append.mp hk with hk | hk
      · rcases List.mem_append.mp hk with hk | hk
        · obtain ⟨a, ha, rfl⟩ := List.mem_map.mp hk
          exact Or.inl (List.mem_map.mpr
            ⟨a, List.mem_of_mem_filter ha, rfl⟩)
        · obtain ⟨p, hp, rfl⟩ := List.mem_map.mp hk
          exact Or.inl (List.mem_map.mpr
            ⟨p.1, (mem_csPairs lk rk locs rems p hp).1, rfl⟩)
      · obtain ⟨b, hb, rfl⟩ := List.mem_map.mp hk
        exact Or.inr (List.mem_map.mpr ⟨b, List.mem_of_mem_filter hb, rfl⟩)
    · intro hk
      rcases hk with hk | hk
      · obtain ⟨a, ha, rfl⟩ := List.mem_map.mp hk
        by_cases hpos : rems.any (fun b => rk b == lk a) = true
        · have hfm : a ∈ (csPairs lk rk locs rems).map Prod.fst := by
            rw [csPairs_map_fst]
            exact List.mem_filter.mpr ⟨ha, hpos⟩
          obtain ⟨p, hp, hpa⟩ := List.mem_map.mp hfm
          refine List.mem_append.mpr (Or.inl (List.mem_append.mpr (Or.inr ?_)))
          exact List.mem_map.mpr ⟨p, hp, by rw [hpa]⟩
        · have hfalse : rems.any (fun b => rk b == lk a) = false := by
            simpa using hpos
          have hR : a ∈ csRemoved lk rk locs rems := by
            unfold csRemoved
            exact List.mem_filter.mpr ⟨ha, by simp [hfalse]⟩
          exact List.mem_append.mpr (Or.inl (List.mem_append.mpr
            (Or.inl (List.mem_map.mpr ⟨a, hR, rfl⟩))))
      · obtain ⟨b, hb, rfl⟩ := List.mem_map.mp hk
        by_cases hpos : locs.any (fun a => lk a == rk b) = true
        · have hbf : b ∈ rems.filter
              (fun b' => locs.any (fun a => lk a == rk b')) :=
            List.mem_filter.mpr ⟨hb, hpos⟩
          have hbm : b ∈ (csPairs lk rk locs rems).map Prod.snd :=
            (csPairs_snd_perm lk rk locs rems h1 h2).mem_iff.mpr hbf
          obtain ⟨p, hp, hpb⟩ := List.mem_map.mp hbm
          have hp3 := (mem_csPairs lk rk locs rems p hp).2.2
          refine List.mem_append.mpr (Or.inl (List.mem_append.mpr (Or.inr ?_)))
          refine List.mem_map.mpr ⟨p, hp, ?_⟩
          rw [← hp3, hpb]
        · have hfalse : locs.any (fun a => lk a == rk b) = false := by
            simpa using hpos
          have hA : b ∈ csAdded lk rk locs rems := by
            unfold csAdded
            exact List.mem_filter.mpr ⟨hb, by simp [hfalse]⟩
          exact List.mem_append.mpr (Or.inr (List.mem_map.mpr ⟨b, hA, rfl⟩))

/-- Witness for C4: the concrete A/B versus B/C key sets have duplicate-free
keys, so the comparator partitions them with no loss and no duplication. -/
theorem C4_partition_completeness_witness :
    ((["A", "B"].map (fun s : String => s)).Nodup ∧
     (["B", "C"].map (fun s : String => s)).Nodup) ∧
    ∃ removed pairs added,
      CompareSets (fun s : String => s) (fun s : String => s)
          ["A", "B"] ["B", "C"]
        = Except.ok (removed, pairs, added) ∧
      (removed ++ pairs.map Prod.fst).Perm ["A", "B"] ∧
      (pairs.map Prod.snd ++ added).Perm ["B", "C"] ∧
      removed.length + pairs.length + added.length = 2 + 2 - pairs.length ∧
      (removed.map (fun s : String => s) ++ pairs.map (fun p => p.1)
          ++ added.map (fun s : String => s)).Nodup ∧
      (∀ k, k ∈ removed.map (fun s : String => s) ++ pairs.map (fun p => p.1)
              ++ added.map (fun s : String => s)
            ↔ k ∈ ["A", "B"].map (fun s : String => s)
              ∨ k ∈ ["B", "C"].map (fun s : String => s)) := by
  refine ⟨⟨by decide, by decide⟩, ?_⟩
  exact C4_partition_completeness (fun s : String => s) (fun s : String => s)
    ["A", "B"] ["B", "C"] (by decide) (by decide)

end OneCloud
